import Mathlib

/-!
Shallow embedding of `src/event.cpp`, the event/signal dispatch core of the
fish shell: event descriptors and their matching rule, the handler registry
with its two-phase (kill-list) removal protocol, the fixed-capacity signal
capture buffers, the blocked-occurrence queue, and the dispatch engine
(`event_fire_internal` / `event_fire_delayed` / `event_fire`).

Modelling conventions:
* The file's global mutable state (`events`, `killme`, `blocked`, `sig_list`,
  `active_list`, and the observable collaborator state) is gathered in one
  record `EvSt`; every C function becomes a state-passing Lean function.
* Heap pointers to `event_t` matter only for identity tests
  (`std::find(killme.begin(), killme.end(), e)`), so each registry entry
  carries a numeric `id` playing the role of its address; `event_add_handler`
  allocates fresh ids from a counter.
* Collaborators (the evaluator `parser.eval`, `sig2wcs`, `escape_string`)
  are bundled in a record `Collab` of function parameters; calls whose only
  effect is observable elsewhere (`signal_handle`, `debug`, `event_free`)
  are recorded in logs inside `EvSt`.
* The C `while` loops whose iteration count depends on handler side effects
  (the delayed-signal loop and the blocked-retry loop, both of which may be
  extended by reentrant handler bodies) are given an explicit fuel argument;
  all theorems either hold for every fuel or state the fuel they need.
-/

/-- Number of signals that can be queued before an overflow occurs
(`SIG_UNHANDLED_MAX` in the source). -/
def SIG_UNHANDLED_MAX : Nat := 64

/-- Event classes of `event_t::type`. The enumeration is declared in the
repository's `event.h` (not under `src/`); the six constructors are exactly
the tags used by `src/event.cpp`. -/
inductive event_type_t where
| EVENT_ANY
| EVENT_SIGNAL
| EVENT_VARIABLE
| EVENT_EXIT
| EVENT_JOB_ID
| EVENT_GENERIC
deriving DecidableEq, Repr

open event_type_t

/-- Modelled from the spec: the wildcard sentinel for a signal pattern
(`EVENT_ANY_SIGNAL`, declared in `event.h` which is missing from `src/`);
only its distinctness from real signal numbers matters. -/
def EVENT_ANY_SIGNAL : Int := -1

/-- Modelled from the spec: the wildcard sentinel for a process-exit pattern
(`EVENT_ANY_PID`, declared in `event.h` which is missing from `src/`);
only its distinctness from real pids matters. -/
def EVENT_ANY_PID : Int := 0

/-- The event descriptor `event_t`, used both for registered patterns and for
concrete occurrences. `param1` models the C `param1` union: the `signal`,
`pid` and `job_id` members share its storage. `arguments` is the
`shared_ptr<wcstring_list_t>`; a null pointer is `none`. -/
structure event_t where
  type : event_type_t
  param1 : Int
  str_param1 : String
  function_name : String
  arguments : Option (List String)
deriving DecidableEq, Repr

/-- The `event_t(type)` base constructor: everything empty, `param1` zeroed,
`arguments` null. -/
def event_t.mk0 (t : event_type_t) : event_t :=
  ⟨t, 0, "", "", none⟩

/-- `event_t::signal_event` from the source. -/
def event_t.signal_event (sig : Int) : event_t :=
  { event_t.mk0 EVENT_SIGNAL with param1 := sig }

/-- `event_t::variable_event` from the source. -/
def event_t.variable_event (str : String) : event_t :=
  { event_t.mk0 EVENT_VARIABLE with str_param1 := str }

/-- `event_t::generic_event` from the source. -/
def event_t.generic_event (str : String) : event_t :=
  { event_t.mk0 EVENT_GENERIC with str_param1 := str }

/-- `event_match(classv, instance)` from the source: the cross-cutting
function-name veto, then the `EVENT_ANY` short-circuit, then the type
comparison, then the per-type switch. -/
def event_match (classv inst : event_t) : Bool :=
  if ¬ classv.function_name = "" ∧ ¬ inst.function_name = "" ∧
      ¬ classv.function_name = inst.function_name then
    false
  else if classv.type = EVENT_ANY then
    true
  else if ¬ classv.type = inst.type then
    false
  else
    match classv.type with
    | EVENT_SIGNAL =>
        if classv.param1 = EVENT_ANY_SIGNAL then true
        else decide (classv.param1 = inst.param1)
    | EVENT_VARIABLE => decide (inst.str_param1 = classv.str_param1)
    | EVENT_EXIT =>
        if classv.param1 = EVENT_ANY_PID then true
        else decide (classv.param1 = inst.param1)
    | EVENT_JOB_ID => decide (classv.param1 = inst.param1)
    | EVENT_GENERIC => decide (inst.str_param1 = classv.str_param1)
    | EVENT_ANY => false

/-- `event_copy(event, copy_arguments)` from the source: a fresh argument
list is always allocated (so the copy's `arguments` is never null), and the
original contents are copied into it only when `copy_arguments` is set and
the original list was non-null. -/
def event_copy (event : event_t) (copy_arguments : Bool) : event_t :=
  { event with
    arguments := some (if copy_arguments then event.arguments.getD [] else []) }

/-- A registry entry: a heap-allocated `event_t *`. The `id` stands for the
pointer value (used by the kill-list membership test); `ev` is the pointee. -/
structure handler_t where
  id : Nat
  ev : event_t
deriving DecidableEq, Repr

/-- `signal_list_t` from the source. The C struct stores a fill count and a
64-slot array; since only the first `count` slots are ever read, the model
keeps the filled prefix as a list (`count` is its length). -/
structure signal_list_t where
  signal : List Int
  overflow : Bool
deriving DecidableEq, Repr

/-- The global mutable state of `src/event.cpp` together with the observable
collaborator state the claims talk about:
* `events`, `killme`, `blocked`, `sig0`/`sig1`/`active_list` are the file's
  statics (`sig_list[0]`, `sig_list[1]`, `active_list`);
* `is_event` is the reentrancy-depth counter (a global from `proc.h`);
* `last_status` / `interactive` model the evaluator collaborator's exit
  status and its interactive-mode flag stack
  (`proc_push_interactive` / `proc_pop_interactive`);
* `isBlockedType` is the blocking oracle: what
  `event_block_list_blocks_type` answers over the parser's scope stack;
* `sigHandleLog` records each `signal_handle(sig, doit)` call,
  `diags` counts `debug` diagnostics, and `freeLog` records each
  `event_free` of an owned descriptor;
* `nextId` is the allocator for registry-entry identities. -/
structure EvSt where
  events : List handler_t
  killme : List handler_t
  blocked : List event_t
  sig0 : signal_list_t
  sig1 : signal_list_t
  active_list : Bool
  is_event : Int
  last_status : Int
  interactive : List Bool
  isBlockedType : event_type_t → Bool
  sigHandleLog : List (Int × Bool)
  diags : Nat
  freeLog : List event_t
  nextId : Nat

/-- The external collaborators consumed as functions: `sig2wcs` (symbolic
signal names), `escape_string` (shell escaping, always called with
`ESCAPE_ALL`), and `evalBody`, the evaluator's `parser.eval` on a built
command line — an arbitrary state transformer, since a handler body may do
anything, including reentering this module. -/
structure Collab where
  sig2wcs : Int → String
  escape_string : String → String
  evalBody : String → EvSt → EvSt

/-- `event_is_blocked(e)` from the source: the walk over the parser's block
stack and the global block list is the collaborator oracle `isBlockedType`,
queried at the occurrence's type. -/
def event_is_blocked (st : EvSt) (e : event_t) : Bool :=
  st.isBlockedType e.type

/-- `event_free(e)` from the source: releases an owned descriptor; the model
records the freed value. -/
def event_free (e : event_t) (st : EvSt) : EvSt :=
  { st with freeLog := st.freeLog ++ [e] }

/-- `event_free_kills()` from the source: frees every entry on the kill list
and empties it. -/
def event_free_kills (st : EvSt) : EvSt :=
  { st with
    freeLog := st.freeLog ++ st.killme.map handler_t.ev
    killme := [] }

/-- `event_is_killed(e)` from the source: pointer membership of a registry
entry in the kill list (`std::find` over `event_t *`). -/
def event_is_killed (st : EvSt) (h : handler_t) : Bool :=
  st.killme.any (fun k => k.id = h.id)

/-- `event_add_handler(event)` from the source: a null descriptor fails the
`CHECK` and returns; otherwise the pattern is deep-copied without its
arguments, `signal_handle(sig, 1)` is requested for signal patterns, and the
copy is appended to the live registry (under signal blocking, which has no
observable effect in this model). -/
def event_add_handler (event : Option event_t) (st : EvSt) : EvSt :=
  match event with
  | none => st
  | some ev =>
    let e := event_copy ev false
    let st1 :=
      if e.type = EVENT_SIGNAL then
        { st with sigHandleLog := st.sigHandleLog ++ [(e.param1, true)] }
      else st
    { st1 with
      events := st1.events ++ [⟨st1.nextId, e⟩]
      nextId := st1.nextId + 1 }

/-- The body of `event_get` restricted to a given snapshot of the live list:
the number of entries matching `criterion`. (`event_get` reads the global
`events`, which `event_remove` has not yet swapped when it calls it.) -/
def event_get_list (criterion : event_t) (evs : List handler_t) : Nat :=
  (evs.filter (fun n => event_match criterion n.ev)).length

/-- `event_get(criterion, out)` from the source, count part: zero when the
registry is empty, zero past the failed `CHECK` on a null criterion, and the
number of matching live entries otherwise. -/
def event_get (criterion : Option event_t) (st : EvSt) : Nat :=
  if st.events = [] then 0
  else
    match criterion with
    | none => 0
    | some crit => event_get_list crit st.events

/-- One iteration of the partition loop of `event_remove`, acting on the
accumulator `(new_list, killme additions, signal_handle-disable log
additions)`. `orig` is the snapshot of the global `events` vector, which the
loop does not mutate (the swap happens only after the loop), so the nested
`event_get` counts matches against the full pre-removal list. -/
def event_remove_step (criterion : event_t) (orig : List handler_t)
    (acc : List handler_t × List handler_t × List (Int × Bool))
    (n : handler_t) :
    List handler_t × List handler_t × List (Int × Bool) :=
  if event_match criterion n.ev then
    let logs :=
      if n.ev.type = EVENT_SIGNAL then
        let e := event_t.signal_event n.ev.param1
        if event_get_list e orig = 1 then acc.2.2 ++ [(e.param1, false)]
        else acc.2.2
      else acc.2.2
    (acc.1, acc.2.1 ++ [n], logs)
  else
    (acc.1 ++ [n], acc.2.1, acc.2.2)

/-- `event_remove(criterion)` from the source: a null criterion fails the
`CHECK`; an empty registry is a no-op; otherwise every matching entry is
moved to the kill list (never freed here), `signal_handle(sig, 0)` is asked
for a removed signal entry whose signal is handled by exactly one entry of
the pre-removal list, and the kept entries are swapped in as the new live
list. -/
def event_remove (criterion : Option event_t) (st : EvSt) : EvSt :=
  match criterion with
  | none => st
  | some crit =>
    if st.events = [] then st
    else
      let r := st.events.foldl (event_remove_step crit st.events) ([], [], [])
      { st with
        events := r.1
        killme := st.killme ++ r.2.1
        sigHandleLog := st.sigHandleLog ++ r.2.2 }

/-- An invocation trace: each handler invocation performed directly by a
dispatch pass, recorded as (registry-entry id, command line handed to
`parser.eval`). -/
abbrev Trace := List (Nat × String)

/-- The command line built by `event_fire_internal` before evaluation: the
handler's function name, followed by each occurrence argument shell-escaped
and space-joined; nothing is appended when the occurrence's argument list is
null. -/
def buildBuffer (c : Collab) (function_name : String)
    (arguments : Option (List String)) : String :=
  match arguments with
  | none => function_name
  | some l => l.foldl (fun b a => b ++ " " ++ c.escape_string a) function_name

/-- The iteration over the fire list inside `event_fire_internal`: each entry
in turn is skipped if it is on the kill list at that moment; otherwise the
command line is built, execution is marked non-interactive, the current exit
status is saved, the evaluator runs the body (an `EVENT` block is pushed and
popped around it, with no observable trace here), the interactive mark is
popped, and the saved status is restored. -/
def fireLoop (c : Collab) (event : event_t) :
    List handler_t → EvSt → EvSt × Trace
  | [], st => (st, [])
  | h :: rest, st =>
    if event_is_killed st h then fireLoop c event rest st
    else
      let buffer := buildBuffer c h.ev.function_name event.arguments
      let st1 := { st with interactive := false :: st.interactive }
      let prev := st1.last_status
      let st2 := c.evalBody buffer st1
      let st3 := { st2 with
        interactive := st2.interactive.tail
        last_status := prev }
      let r := fireLoop c event rest st3
      (r.1, (h.id, buffer) :: r.2)

/-- `event_fire_internal(event)` from the source: free the kill list, return
on an empty registry, build the fire list once (every live entry matching
the occurrence, in registration order), return if it is empty, run the fire
loop, and free the kill list again. -/
def event_fire_internal (c : Collab) (event : event_t) (st : EvSt) :
    EvSt × Trace :=
  let st0 := event_free_kills st
  if st0.events = [] then (st0, [])
  else
    let fire := st0.events.filter (fun h => event_match h.ev event)
    if fire = [] then (st0, [])
    else
      let r := fireLoop c event fire st0
      (event_free_kills r.1, r.2)

/-- The signal-capture slot currently written to (`sig_list[active_list]`). -/
def activeSlot (st : EvSt) : signal_list_t :=
  if st.active_list then st.sig1 else st.sig0

/-- `event_fire_signal`'s effect on one slot: append below the 64-entry
bound, otherwise set the overflow flag and drop the signal. -/
def capture_slot (signal : Int) (lst : signal_list_t) : signal_list_t :=
  if lst.signal.length < SIG_UNHANDLED_MAX then
    { lst with signal := lst.signal ++ [signal] }
  else
    { lst with overflow := true }

/-- `event_fire_signal(signal)` from the source: the signal-handler-context
entry point; it writes only into the active slot. -/
def event_fire_signal (signal : Int) (st : EvSt) : EvSt :=
  if st.active_list then { st with sig1 := capture_slot signal st.sig1 }
  else { st with sig0 := capture_slot signal st.sig0 }

/-- The slot swap at the top of the delayed-signal loop: the inactive slot's
count and overflow flag are reset and it becomes active; the previously
active slot (its contents untouched) is the one about to be drained. -/
def flipActive (st : EvSt) : EvSt :=
  if st.active_list then { st with sig0 := ⟨[], false⟩, active_list := false }
  else { st with sig1 := ⟨[], false⟩, active_list := true }

/-- The `Signal` occurrence synthesized for a drained raw signal number:
`signal_event(0)` with the signal filled in and a one-element argument list
holding the signal's symbolic name; its function name is empty. -/
def sigEvent (c : Collab) (s : Int) : event_t :=
  { event_t.signal_event s with arguments := some [c.sig2wcs s] }

/-- The inner loop of the delayed-signal drain: each captured signal number
in order is turned into its `sigEvent` occurrence and either deep-copied
onto the blocked queue (when its class is blocked at that moment) or
dispatched through `event_fire_internal`. Besides the state and the
invocation trace, the model also returns the list of occurrences routed, in
order. -/
def drainEvents (c : Collab) :
    List Int → EvSt → EvSt × Trace × List event_t
  | [], st => (st, [], [])
  | s :: rest, st =>
    let e := sigEvent c s
    if event_is_blocked st e then
      let r := drainEvents c rest
        { st with blocked := st.blocked ++ [event_copy e true] }
      (r.1, r.2.1, e :: r.2.2)
    else
      let r1 := event_fire_internal c e st
      let r := drainEvents c rest r1.1
      (r.1, r1.2 ++ r.2.1, e :: r.2.2)

/-- One iteration of the `while( sig_list[active_list].count > 0 )` loop:
swap the slots, emit the overflow diagnostic if the drained slot's flag was
set, then route every captured signal. -/
def drainOnce (c : Collab) (st : EvSt) : EvSt × Trace × List event_t :=
  let lst := activeSlot st
  let st1 := flipActive st
  let st2 := if lst.overflow then { st1 with diags := st1.diags + 1 } else st1
  drainEvents c lst.signal st2

/-- The delayed-signal `while` loop. Handler bodies run by the drain may
capture further signals into the freshly reset slot, so the number of
iterations is not bounded by the state alone; `fuel` bounds it explicitly
(the loop also stops when the active slot is empty, as in the source). -/
def drainLoop (c : Collab) : Nat → EvSt → EvSt × Trace
  | 0, st => (st, [])
  | fuel + 1, st =>
    if 0 < (activeSlot st).signal.length then
      let r1 := drainOnce c st
      let r2 := drainLoop c fuel r1.1
      (r2.1, r1.2.1 ++ r2.2)
    else (st, [])

/-- The blocked-queue retry loop of `event_fire_delayed`: index `i` walks the
global `blocked` vector, whose size is re-read every iteration (reentrant
handler bodies may append to it mid-loop); still-blocked entries are kept in
`acc` (`new_blocked`), now-unblocked ones are dispatched and freed; when the
index passes the end, `blocked.swap(new_blocked)` installs the kept entries.
`fuel` bounds the iterations of this growing loop. -/
def retryLoop (c : Collab) :
    Nat → Nat → List event_t → EvSt → EvSt × Trace
  | 0, _, acc, st => ({ st with blocked := acc }, [])
  | fuel + 1, i, acc, st =>
    match st.blocked[i]? with
    | none => ({ st with blocked := acc }, [])
    | some e =>
      if event_is_blocked st e then retryLoop c fuel (i + 1) (acc ++ [e]) st
      else
        let r1 := event_fire_internal c e st
        let st2 := event_free e r1.1
        let r := retryLoop c fuel (i + 1) acc st2
        (r.1, r1.2 ++ r.2)

/-- The blocked-queue retry step of `event_fire_delayed`, with its guard:
it runs only when the queue is non-empty and the reentrancy depth counter
`is_event` equals one. -/
def retryBlocked (c : Collab) (fuel : Nat) (st : EvSt) : EvSt × Trace :=
  if ¬ st.blocked = [] ∧ st.is_event = 1 then retryLoop c fuel 0 [] st
  else (st, [])

/-- `event_fire_delayed()` from the source: the blocked-queue retry step,
then the delayed-signal drain loop. -/
def event_fire_delayed (c : Collab) (fuel : Nat) (st : EvSt) :
    EvSt × Trace :=
  let r1 := retryBlocked c fuel st
  let r2 := drainLoop c fuel r1.1
  (r2.1, r1.2 ++ r2.2)

/-- `event_fire(event)` from the source: a `Signal`-typed occurrence is only
forwarded to the capture path; otherwise the depth counter is incremented,
delayed events are processed, and then — when a descriptor was passed at
all — the occurrence is either deep-copied onto the blocked queue (if its
class is blocked) or dispatched, before the counter is decremented. -/
def event_fire (c : Collab) (fuel : Nat) (event : Option event_t)
    (st : EvSt) : EvSt × Trace :=
  match event with
  | some ev =>
    if ev.type = EVENT_SIGNAL then (event_fire_signal ev.param1 st, [])
    else
      let sta := { st with is_event := st.is_event + 1 }
      let r1 := event_fire_delayed c fuel sta
      let r2 :=
        if event_is_blocked r1.1 ev then
          ({ r1.1 with blocked := r1.1.blocked ++ [event_copy ev true] },
            ([] : Trace))
        else event_fire_internal c ev r1.1
      ({ r2.1 with is_event := r2.1.is_event - 1 }, r1.2 ++ r2.2)
  | none =>
    let sta := { st with is_event := st.is_event + 1 }
    let r1 := event_fire_delayed c fuel sta
    ({ r1.1 with is_event := r1.1.is_event - 1 }, r1.2)

/-! ## Claim C1: the matching decision order -/

/-- Specification-side restatement of the matching rule, following the
claim's wording: first the handler-name veto, then the `Any` marker, then
the type comparison, then per type — Signal true iff wildcard or numerically
equal, Variable and Generic by string equality of the name, ProcessExit true
iff wildcard or numerically equal, JobExit exact equality with no wildcard. -/
def matches_spec (pattern occurrence : event_t) : Bool :=
  if ¬ pattern.function_name = "" ∧ ¬ occurrence.function_name = "" ∧
      ¬ pattern.function_name = occurrence.function_name then
    false
  else if pattern.type = EVENT_ANY then
    true
  else if ¬ pattern.type = occurrence.type then
    false
  else
    match pattern.type with
    | EVENT_SIGNAL =>
        decide (pattern.param1 = EVENT_ANY_SIGNAL ∨
          pattern.param1 = occurrence.param1)
    | EVENT_VARIABLE => decide (pattern.str_param1 = occurrence.str_param1)
    | EVENT_EXIT =>
        decide (pattern.param1 = EVENT_ANY_PID ∨
          pattern.param1 = occurrence.param1)
    | EVENT_JOB_ID => decide (pattern.param1 = occurrence.param1)
    | EVENT_GENERIC => decide (pattern.str_param1 = occurrence.str_param1)
    | EVENT_ANY => false

/-- Claim C1: `event_match` follows exactly the claimed decision order — the
handler-name veto first, then the `Any` short-circuit, then the type
comparison, then the per-type rules (Signal and ProcessExit with wildcard or
numeric equality, Variable and Generic by name equality, JobExit by exact
job-id equality). Stated as extensional equality between the source function
and the claim-side restatement. -/
theorem event_match_follows_spec (pattern occurrence : event_t) :
    event_match pattern occurrence = matches_spec pattern occurrence := by
  unfold event_match matches_spec
  rcases pattern with ⟨pt, pp, ps, pf, pa⟩
  rcases occurrence with ⟨ot, op, os, of, oa⟩
  simp only
  split
  · rfl
  · split
    · rfl
    · split
      · rfl
      · cases pt
        case EVENT_ANY => rfl
        case EVENT_SIGNAL =>
          by_cases h : pp = EVENT_ANY_SIGNAL <;> simp [h]
        case EVENT_VARIABLE => simp [eq_comm]
        case EVENT_EXIT =>
          by_cases h : pp = EVENT_ANY_PID <;> simp [h]
        case EVENT_JOB_ID => rfl
        case EVENT_GENERIC => simp [eq_comm]

/-! ## Claim C2: the discipline of one dispatch pass -/

/-- The fire loop distributes over appended fire lists: the second part runs
from the state the first part left behind, and the traces concatenate. -/
theorem fireLoop_append (c : Collab) (ev : event_t) (l1 l2 : List handler_t)
    (st : EvSt) :
    fireLoop c ev (l1 ++ l2) st =
      ((fireLoop c ev l2 (fireLoop c ev l1 st).1).1,
        (fireLoop c ev l1 st).2 ++ (fireLoop c ev l2 (fireLoop c ev l1 st).1).2) := by
  induction l1 generalizing st with
  | nil => simp [fireLoop]
  | cons h rest ih =>
    by_cases hk : event_is_killed st h = true
    · simp only [List.cons_append, fireLoop, if_pos hk]
      exact ih st
    · simp only [List.cons_append, fireLoop, if_neg hk]
      rw [show (rest.append l2) = rest ++ l2 from rfl, ih]

/-- The ids invoked by the fire loop form a sublist of the fire list's ids:
they come only from the list built at the start of the pass, in its order,
each position contributing at most one invocation. -/
theorem fireLoop_trace_ids (c : Collab) (ev : event_t) (l : List handler_t)
    (st : EvSt) :
    ((fireLoop c ev l st).2.map Prod.fst).Sublist (l.map handler_t.id) := by
  induction l generalizing st with
  | nil => simp [fireLoop]
  | cons h rest ih =>
    simp only [fireLoop, List.map_cons]
    by_cases hk : event_is_killed st h = true
    · simp only [if_pos hk]
      exact (ih st).cons _
    · simp only [if_neg hk, List.map_cons]
      exact (ih _).cons₂ _

/-- A fire-loop entry that is on the kill list when its turn arrives is
skipped: the loop on `h :: l` continues directly with `l`. -/
theorem fireLoop_skips_killed (c : Collab) (ev : event_t) (h : handler_t)
    (l : List handler_t) (st : EvSt)
    (hk : event_is_killed st h = true) :
    fireLoop c ev (h :: l) st = fireLoop c ev l st := by
  simp only [fireLoop, if_pos hk]

/-- A fire-list entry that is not on the kill list when its turn arrives is
invoked: the loop on `h :: l` records `h`'s invocation, with the command
line built from `h`'s function name and the occurrence's arguments. -/
theorem fireLoop_fires_live_head (c : Collab) (ev : event_t) (h : handler_t)
    (l : List handler_t) (st : EvSt)
    (hk : event_is_killed st h = false) :
    (h.id, buildBuffer c h.ev.function_name ev.arguments) ∈
      (fireLoop c ev (h :: l) st).2 := by
  have hk' : ¬ event_is_killed st h = true := by simp [hk]
  simp only [fireLoop, if_neg hk']
  exact List.mem_cons_self _ _

/-- Claim C2: one `event_fire_internal` pass invokes exactly the handlers
that were live and matching at the start of the pass, in registration order,
skipping precisely the entries on the kill list at their turn. Upper bound:
the invoked ids are a sublist of the fire list's ids (so handlers registered
during the pass are never invoked for this occurrence, and with distinct
entry identities each handler runs at most once). Lower bound: every fire
list entry that is not on the kill list when its turn arrives is invoked,
with the command line built from its function name and the occurrence's
arguments. And an entry that is on the kill list at its turn (for example
because an earlier handler of the same pass unregistered it) is invoked
zero times. -/
theorem event_fire_internal_pass (c : Collab) (ev : event_t) (st : EvSt) :
    (((event_fire_internal c ev st).2.map Prod.fst).Sublist
      ((st.events.filter (fun h => event_match h.ev ev)).map handler_t.id)) ∧
    ((st.events.map handler_t.id).Nodup →
      ((event_fire_internal c ev st).2.map Prod.fst).Nodup) ∧
    (∀ l1 h l2,
        st.events.filter (fun hh => event_match hh.ev ev) = l1 ++ h :: l2 →
        event_is_killed (fireLoop c ev l1 (event_free_kills st)).1 h = false →
        (h.id, buildBuffer c h.ev.function_name ev.arguments) ∈
          (event_fire_internal c ev st).2) ∧
    ((st.events.map handler_t.id).Nodup →
      ∀ l1 h l2,
        st.events.filter (fun hh => event_match hh.ev ev) = l1 ++ h :: l2 →
        event_is_killed (fireLoop c ev l1 (event_free_kills st)).1 h = true →
        h.id ∉ (event_fire_internal c ev st).2.map Prod.fst) := by
  have hev : (event_free_kills st).events = st.events := rfl
  have hfilter_sub :
      ((st.events.filter (fun h => event_match h.ev ev)).map handler_t.id).Sublist
        (st.events.map handler_t.id) :=
    (List.filter_sublist _).map _
  have htrace :
      ((event_fire_internal c ev st).2.map Prod.fst).Sublist
        ((st.events.filter (fun h => event_match h.ev ev)).map handler_t.id) := by
    simp only [event_fire_internal]
    by_cases h0 : (event_free_kills st).events = []
    · rw [if_pos h0]
      simp
    · rw [if_neg h0]
      by_cases h1 :
          List.filter (fun h => event_match h.ev ev) (event_free_kills st).events = []
      · rw [if_pos h1]
        simp
      · rw [if_neg h1]
        exact fireLoop_trace_ids c ev _ _
  refine ⟨htrace, fun hnd => (htrace.trans hfilter_sub).nodup hnd, ?_, ?_⟩
  · intro l1 h l2 hsplit hlive
    have hne : ¬ st.events = [] := by
      intro hcon
      rw [hcon] at hsplit
      simp at hsplit
    have hfne : ¬ st.events.filter (fun hh => event_match hh.ev ev) = [] := by
      rw [hsplit]
      simp
    have hthis : (event_fire_internal c ev st).2 =
        (fireLoop c ev (st.events.filter (fun hh => event_match hh.ev ev))
          (event_free_kills st)).2 := by
      simp only [event_fire_internal]
      rw [if_neg (by rw [hev]; exact hne), if_neg (by rw [hev]; exact hfne)]
      rfl
    rw [hthis, hsplit, fireLoop_append]
    simp only [List.mem_append]
    exact Or.inr (fireLoop_fires_live_head c ev h l2 _ hlive)
  intro hnd l1 h l2 hsplit hkill hmem
  have hfire_nd :
      ((st.events.filter (fun hh => event_match hh.ev ev)).map handler_t.id).Nodup :=
    hfilter_sub.nodup hnd
  rw [hsplit] at hfire_nd
  simp only [List.map_append, List.map_cons, List.nodup_append,
    List.nodup_cons] at hfire_nd
  -- the trace decomposes along l1 / h / l2, with h skipped
  have hne : ¬ st.events = [] := by
    intro hcon
    rw [hcon] at hsplit
    simp at hsplit
  have hfne : ¬ st.events.filter (fun hh => event_match hh.ev ev) = [] := by
    rw [hsplit]
    simp
  have : (event_fire_internal c ev st).2 =
      (fireLoop c ev (st.events.filter (fun hh => event_match hh.ev ev))
        (event_free_kills st)).2 := by
    simp only [event_fire_internal]
    rw [if_neg (by rw [hev]; exact hne), if_neg (by rw [hev]; exact hfne)]
    rfl
  rw [this, hsplit, fireLoop_append,
    fireLoop_skips_killed c ev h l2 _ hkill] at hmem
  simp only [List.map_append, List.mem_append] at hmem
  rcases hmem with hmem | hmem
  · have := (fireLoop_trace_ids c ev l1 (event_free_kills st)).subset hmem
    rcases hfire_nd with ⟨-, -, hdisj⟩
    exact hdisj this (List.mem_cons_self _ _)
  · have := (fireLoop_trace_ids c ev l2 _).subset hmem
    rcases hfire_nd with ⟨-, ⟨hnotin, -⟩, -⟩
    exact hnotin this

/-- Concrete registry entry for the C2 witness scenario: a generic-event
handler named `f`, registered first. -/
def hA2 : handler_t :=
  ⟨0, { event_t.generic_event "e" with function_name := "f", arguments := some [] }⟩

/-- Concrete registry entry for the C2 witness scenario: a generic-event
handler named `g`, registered second. -/
def hB2 : handler_t :=
  ⟨1, { event_t.generic_event "e" with function_name := "g", arguments := some [] }⟩

/-- Concrete collaborators for the C2 witness: the body of handler `f`
unregisters handler `g`; every other body is a no-op. -/
def cW2 : Collab :=
  ⟨fun s => toString s, fun a => a,
    fun b s =>
      if b = "f" then
        event_remove (some { event_t.generic_event "e" with function_name := "g" }) s
      else s⟩

/-- Concrete start state for the C2 witness: both handlers live, nothing
else pending. -/
def stW2 : EvSt :=
  { events := [hA2, hB2]
    killme := []
    blocked := []
    sig0 := ⟨[], false⟩
    sig1 := ⟨[], false⟩
    active_list := false
    is_event := 0
    last_status := 0
    interactive := []
    isBlockedType := fun _ => false
    sigHandleLog := []
    diags := 0
    freeLog := []
    nextId := 2 }

/-- Witness for claim C2: in the concrete pass where handler `f` unregisters
handler `g`, entry `f` (id 0) is live at its turn and is invoked with
command line `f`, while entry `g` (id 1) is on the kill list when its turn
arrives and the pass invokes it zero times. -/
theorem event_fire_internal_pass_witness :
    event_is_killed
      (fireLoop cW2 (event_t.generic_event "e") [] (event_free_kills stW2)).1
      hA2 = false ∧
    ((0 : Nat), "f") ∈ (event_fire_internal cW2 (event_t.generic_event "e") stW2).2 ∧
    event_is_killed
      (fireLoop cW2 (event_t.generic_event "e") [hA2] (event_free_kills stW2)).1
      hB2 = true ∧
    (1 : Nat) ∉ (event_fire_internal cW2 (event_t.generic_event "e") stW2).2.map
      Prod.fst :=
  ⟨by decide,
    (event_fire_internal_pass cW2 (event_t.generic_event "e") stW2).2.2.1
      [] hA2 [hB2] (by decide) (by decide),
    by decide,
    (event_fire_internal_pass cW2 (event_t.generic_event "e") stW2).2.2.2
      (by decide) [hA2] hB2 [] (by decide) (by decide)⟩

/-! ## Claim C3: signal disabling on unregister -/

/-- Condition under which `event_remove` asks the OS-signal collaborator to
stop delivering the removed entry's signal: the entry is a signal handler
and the pattern `signal_event(its signal)` matches exactly one entry of the
pre-removal registry snapshot (necessarily the entry itself). -/
def sole_signal_handler (orig : List handler_t) (nev : event_t) : Bool :=
  decide (nev.type = EVENT_SIGNAL) &&
    decide (event_get_list (event_t.signal_event nev.param1) orig = 1)

/-- Closed form of the partition loop of `event_remove`: kept entries,
removed entries, and the `signal_handle(sig, 0)` calls it makes, all as
filters of the traversed list against the fixed pre-removal snapshot. -/
theorem event_remove_foldl (crit : event_t) (orig : List handler_t)
    (l : List handler_t)
    (acc : List handler_t × List handler_t × List (Int × Bool)) :
    l.foldl (event_remove_step crit orig) acc =
      (acc.1 ++ l.filter (fun n => !(event_match crit n.ev)),
        acc.2.1 ++ l.filter (fun n => event_match crit n.ev),
        acc.2.2 ++
          (l.filter
            (fun n => event_match crit n.ev && sole_signal_handler orig n.ev)).map
            (fun n => (n.ev.param1, false))) := by
  induction l generalizing acc with
  | nil => simp
  | cons n rest ih =>
    simp only [List.foldl_cons, ih]
    by_cases hm : event_match crit n.ev = true
    · by_cases hs : n.ev.type = EVENT_SIGNAL
      · by_cases hc : event_get_list (event_t.signal_event n.ev.param1) orig = 1
        · have hc' : event_get_list
              { type := EVENT_SIGNAL, param1 := n.ev.param1, str_param1 := "",
                function_name := "", arguments := none } orig = 1 := hc
          simp [event_remove_step, sole_signal_handler, hm, hs, hc, hc',
            event_t.signal_event, event_t.mk0]
        · simp [event_remove_step, sole_signal_handler, hm, hs, hc]
      · simp [event_remove_step, sole_signal_handler, hm, hs]
    · simp [event_remove_step, sole_signal_handler, hm]

/-- Claim C3, amended: during one `event_remove(criterion)` call the live
list keeps exactly the non-matching entries, the kill list gains exactly the
matching entries (in order), and `signal_handle(sig, 0)` is called exactly
for those removed signal entries whose signal pattern matches exactly one
entry of the pre-removal registry. In particular, when two or more entries
handling the same signal are removed by the same call, `disable_delivery`
is not called for that signal at all, even though zero live entries remain
for it. -/
theorem event_remove_effect (crit : event_t) (st : EvSt) :
    (event_remove (some crit) st).events =
        st.events.filter (fun n => !(event_match crit n.ev)) ∧
    (event_remove (some crit) st).killme =
        st.killme ++ st.events.filter (fun n => event_match crit n.ev) ∧
    (event_remove (some crit) st).sigHandleLog =
        st.sigHandleLog ++
          ((st.events.filter
              (fun n => event_match crit n.ev && sole_signal_handler st.events n.ev)).map
            (fun n => (n.ev.param1, false))) := by
  simp only [event_remove]
  by_cases h0 : st.events = []
  · rw [if_pos h0]
    simp [h0]
  · rw [if_neg h0]
    rw [event_remove_foldl]
    simp

/-- Counterexample state for claim C3: two live handlers for signal 5 and an
empty `signal_handle` call log. -/
def stC3 : EvSt :=
  { events :=
      [⟨0, { event_t.signal_event 5 with function_name := "a", arguments := some [] }⟩,
        ⟨1, { event_t.signal_event 5 with function_name := "b", arguments := some [] }⟩]
    killme := []
    blocked := []
    sig0 := ⟨[], false⟩
    sig1 := ⟨[], false⟩
    active_list := false
    is_event := 0
    last_status := 0
    interactive := []
    isBlockedType := fun _ => false
    sigHandleLog := []
    diags := 0
    freeLog := []
    nextId := 2 }

/-- Counterexample to claim C3 as stated: unregistering with the non-wildcard
pattern `Signal 5` removes both live handlers for signal 5, so zero live
entries match a signal-5 occurrence after the removal — yet the unregister
call performs no `signal_handle` call at all (the claim demands exactly one
`disable_delivery(5)`), because the uniqueness test runs against the
pre-removal list, which still holds both entries. -/
theorem event_remove_disable_counterexample :
    (event_remove (some (event_t.signal_event 5)) stC3).events.filter
        (fun n => event_match n.ev (event_t.signal_event 5)) = [] ∧
    (event_remove (some (event_t.signal_event 5)) stC3).events = [] ∧
    (event_remove (some (event_t.signal_event 5)) stC3).sigHandleLog = [] := by
  decide

/-! ## Claim C4: capture bound, overflow flag, and the drain -/

/-- Closed form of a run of captures into one slot: with at most 64 entries
already present, the slot ends up holding the old contents extended by the
new signals up to capacity, and the overflow flag is set exactly when the
total would exceed 64. -/
theorem capture_slot_foldl (ss : List Int) (l : List Int) (ov : Bool)
    (hl : l.length ≤ 64) :
    List.foldl (fun sl s => capture_slot s sl) ⟨l, ov⟩ ss =
      ⟨l ++ ss.take (64 - l.length),
        ov || decide (64 < l.length + ss.length)⟩ := by
  induction ss generalizing l ov with
  | nil =>
    simp only [List.foldl_nil, List.take_nil, List.append_nil, List.length_nil,
      Nat.add_zero]
    have : ¬ (64 < l.length) := Nat.not_lt.mpr hl
    simp [this]
  | cons s rest ih =>
    simp only [List.foldl_cons]
    by_cases hlt : l.length < 64
    · have hstep : capture_slot s ⟨l, ov⟩ = ⟨l ++ [s], ov⟩ := by
        simp [capture_slot, SIG_UNHANDLED_MAX, hlt]
      rw [hstep, ih (l ++ [s]) ov (by simp; omega)]
      have htake : (s :: rest).take (64 - l.length)
          = s :: rest.take (64 - (l ++ [s]).length) := by
        have h1 : 64 - l.length = (64 - (l ++ [s]).length) + 1 := by
          simp
          omega
        rw [h1, List.take_succ_cons]
      rw [htake]
      simp only [signal_list_t.mk.injEq, List.append_assoc,
        List.singleton_append, List.length_append, List.length_cons,
        List.length_singleton, List.length_nil]
      refine ⟨trivial, ?_⟩
      congr 1
      rw [decide_eq_decide]
      omega
    · have hstep : capture_slot s ⟨l, ov⟩ = ⟨l, true⟩ := by
        simp [capture_slot, SIG_UNHANDLED_MAX, hlt]
      rw [hstep, ih l true hl]
      have h64 : l.length = 64 := by omega
      simp [h64, List.length_cons]

/-- The occurrences routed by the drain's inner loop are exactly the
captured signal numbers, in capture order, each as its `sigEvent`. -/
theorem drainEvents_routed (c : Collab) (l : List Int) (st : EvSt) :
    (drainEvents c l st).2.2 = l.map (sigEvent c) := by
  induction l generalizing st with
  | nil => simp [drainEvents]
  | cons s rest ih =>
    simp only [drainEvents, List.map_cons]
    by_cases hb : event_is_blocked st (sigEvent c s) = true
    · simp only [if_pos hb]
      rw [ih]
    · simp only [if_neg hb]
      rw [ih]

/-- Claim C4: captures below the 64-entry bound append the signal and grow
the count by one; a capture at the bound sets the slot's overflow flag and
leaves the count and stored signals unchanged; a capture run into an
initially empty slot stores exactly the first 64 signals and flags overflow
exactly when more arrived; and one drain of the active slot routes exactly
`count` occurrences (the captured signals, in capture order) while emitting
the overflow diagnostic exactly when the flag was set. -/
theorem capture_overflow_drain (c : Collab) (s : Int) (sl : signal_list_t)
    (ss : List Int) (st : EvSt) :
    capture_slot s sl =
      (if sl.signal.length < 64 then ⟨sl.signal ++ [s], sl.overflow⟩
        else ⟨sl.signal, true⟩) ∧
    activeSlot (event_fire_signal s st) = capture_slot s (activeSlot st) ∧
    (event_fire_signal s st).events = st.events ∧
    (event_fire_signal s st).blocked = st.blocked ∧
    (event_fire_signal s st).killme = st.killme ∧
    List.foldl (fun sl s => capture_slot s sl) ⟨[], false⟩ ss =
      ⟨ss.take 64, decide (64 < ss.length)⟩ ∧
    (drainOnce c st).2.2 = (activeSlot st).signal.map (sigEvent c) ∧
    (drainOnce c st).2.2.length = (activeSlot st).signal.length ∧
    drainOnce c st =
      drainEvents c (activeSlot st).signal
        (if (activeSlot st).overflow then
          { flipActive st with diags := (flipActive st).diags + 1 }
        else flipActive st) ∧
    (if (activeSlot st).overflow then
          { flipActive st with diags := (flipActive st).diags + 1 }
        else flipActive st).diags =
      st.diags + (if (activeSlot st).overflow then 1 else 0) := by
  refine ⟨rfl, ?_, ?_, ?_, ?_, ?_, ?_, ?_, rfl, ?_⟩
  · simp only [event_fire_signal, activeSlot]
    by_cases ha : st.active_list = true <;> simp [ha]
  · simp only [event_fire_signal]
    by_cases ha : st.active_list = true <;> simp [ha]
  · simp only [event_fire_signal]
    by_cases ha : st.active_list = true <;> simp [ha]
  · simp only [event_fire_signal]
    by_cases ha : st.active_list = true <;> simp [ha]
  · have := capture_slot_foldl ss [] false (by simp)
    simpa using this
  · simp only [drainOnce]
    rw [drainEvents_routed]
  · simp only [drainOnce]
    rw [drainEvents_routed]
    simp
  · have hflip : (flipActive st).diags = st.diags := by
      simp only [flipActive]
      by_cases ha : st.active_list = true <;> simp [ha]
    by_cases ho : (activeSlot st).overflow = true <;> simp [ho, hflip]

/-! ## Claim C7: the blocked-queue retry runs only at depth one -/

/-- Claim C7: the blocked-occurrence queue is retried only when the
reentrancy-depth counter equals one. Whenever `is_event` differs from one,
the retry step is the identity (no queue entry is examined, removed or
fired, even if it has become unblocked), the whole delayed-processing step
degenerates to the signal drain loop, and a reentrant `event_fire`
(performed while some outer dispatch holds `is_event` at one or more, so the
counter is at least two inside) processes delayed events without any
blocked-queue retry. -/
theorem retry_depth_gate (c : Collab) (fuel : Nat) (st : EvSt) :
    (¬ st.is_event = 1 → retryBlocked c fuel st = (st, [])) ∧
    (¬ st.is_event = 1 → event_fire_delayed c fuel st = drainLoop c fuel st) ∧
    (∀ ev : event_t, ¬ ev.type = EVENT_SIGNAL → 1 ≤ st.is_event →
      event_fire c fuel (some ev) st =
        (let sta : EvSt := { st with is_event := st.is_event + 1 }
         let r1 := drainLoop c fuel sta
         let r2 :=
           if event_is_blocked r1.1 ev then
             ({ r1.1 with blocked := r1.1.blocked ++ [event_copy ev true] },
               ([] : Trace))
           else event_fire_internal c ev r1.1
         ({ r2.1 with is_event := r2.1.is_event - 1 }, r1.2 ++ r2.2))) := by
  have h1 : ∀ st' : EvSt, ¬ st'.is_event = 1 →
      retryBlocked c fuel st' = (st', []) := by
    intro st' h
    simp only [retryBlocked]
    rw [if_neg]
    intro hc
    exact h hc.2
  have h2 : ∀ st' : EvSt, ¬ st'.is_event = 1 →
      event_fire_delayed c fuel st' = drainLoop c fuel st' := by
    intro st' h
    simp only [event_fire_delayed, h1 st' h]
    rfl
  refine ⟨h1 st, h2 st, ?_⟩
  intro ev hty hge
  have hne : ¬ ({ st with is_event := st.is_event + 1 } : EvSt).is_event = 1 := by
    simp only
    omega
  simp only [event_fire, if_neg hty, h2 _ hne]

/-- Concrete collaborators for the C7 witness: inert bodies. -/
def cW7 : Collab := ⟨fun _ => "s", fun a => a, fun _ s => s⟩

/-- Concrete state for the C7 witness: dispatch depth two, with one queued
occurrence whose class is no longer blocked. -/
def stW7 : EvSt :=
  { events := []
    killme := []
    blocked := [event_t.generic_event "g"]
    sig0 := ⟨[], false⟩
    sig1 := ⟨[], false⟩
    active_list := false
    is_event := 2
    last_status := 0
    interactive := []
    isBlockedType := fun _ => false
    sigHandleLog := []
    diags := 0
    freeLog := []
    nextId := 0 }

/-- Witness for claim C7: at depth two the retry step leaves the state (in
particular the blocked queue, whose single entry is unblocked) untouched
and fires nothing. -/
theorem retry_depth_gate_witness :
    retryBlocked cW7 3 stW7 = (stW7, []) :=
  (retry_depth_gate cW7 3 stW7).1 (by decide)

/-! ## Claim C9: absent descriptors -/

/-- Claim C9, amended: a null descriptor passed to `event_add_handler`,
`event_remove`, or `event_get` makes the operation return with no effect
(and a count of zero for the lookup); but `event_fire(NULL)` is not a
side-effect-free rejection — it skips only the dispatch of an occurrence of
its own and still performs the full delayed-processing step (blocked-queue
retry and pending-signal drain) inside an increment/decrement of the depth
counter. -/
theorem null_descriptor_ops (c : Collab) (fuel : Nat) (st : EvSt) :
    event_add_handler none st = st ∧
    event_remove none st = st ∧
    event_get none st = 0 ∧
    event_fire c fuel none st =
      (let r1 := event_fire_delayed c fuel
        { st with is_event := st.is_event + 1 }
       ({ r1.1 with is_event := r1.1.is_event - 1 }, r1.2)) := by
  refine ⟨rfl, rfl, ?_, rfl⟩
  simp only [event_get]
  by_cases h : st.events = [] <;> simp [h]

/-- Concrete collaborators for the C9 counterexample: inert bodies, a fixed
symbolic signal name. -/
def cW9 : Collab := ⟨fun _ => "SIGTEST", fun a => a, fun _ s => s⟩

/-- Concrete state for the C9 counterexample: one live handler for signal 5
and one captured, undelivered signal 5 in the active slot. -/
def stW9 : EvSt :=
  { events :=
      [⟨0, { event_t.signal_event 5 with function_name := "h", arguments := some [] }⟩]
    killme := []
    blocked := []
    sig0 := ⟨[5], false⟩
    sig1 := ⟨[], false⟩
    active_list := false
    is_event := 0
    last_status := 0
    interactive := []
    isBlockedType := fun _ => false
    sigHandleLog := []
    diags := 0
    freeLog := []
    nextId := 1 }

/-- Counterexample to claim C9 as stated: calling `event_fire` with an
absent (null) descriptor on `stW9` does fire a handler (the drained captured
signal invokes it with command line `h SIGTEST`) and does mutate the
signal-capture buffers (the slots are swapped and the drained slot is no
longer active), contradicting the claim that a null descriptor never fires
a handler and has no side effect on the capture buffers. -/
theorem null_fire_counterexample :
    (event_fire cW9 4 none stW9).2 = [(0, "h SIGTEST")] ∧
    (activeSlot stW9).signal = [5] ∧
    (activeSlot (event_fire cW9 4 none stW9).1).signal = [] ∧
    (event_fire cW9 4 none stW9).1.active_list = true := by
  decide

/-! ## Claim C8: exit status and interactive flag restoration -/

/-- The fire loop leaves the evaluator's exit status where it found it: each
iteration saves the status before running the body and restores it after,
for an arbitrary body. -/
theorem fireLoop_last_status (c : Collab) (ev : event_t)
    (l : List handler_t) (st : EvSt) :
    (fireLoop c ev l st).1.last_status = st.last_status := by
  induction l generalizing st with
  | nil => rfl
  | cons h rest ih =>
    simp only [fireLoop]
    by_cases hk : event_is_killed st h = true
    · simp only [if_pos hk]
      exact ih st
    · simp only [if_neg hk]
      rw [ih]

/-- `event_fire_internal` preserves the exit status, whatever the handler
bodies do. -/
theorem event_fire_internal_last_status (c : Collab) (ev : event_t)
    (st : EvSt) :
    (event_fire_internal c ev st).1.last_status = st.last_status := by
  simp only [event_fire_internal]
  by_cases h0 : (event_free_kills st).events = []
  · rw [if_pos h0]
    rfl
  · rw [if_neg h0]
    by_cases h1 :
        List.filter (fun h => event_match h.ev ev) (event_free_kills st).events = []
    · rw [if_pos h1]
      rfl
    · rw [if_neg h1]
      exact fireLoop_last_status c ev _ _

/-- The retry loop preserves the exit status. -/
theorem retryLoop_last_status (c : Collab) :
    ∀ (fuel i : Nat) (acc : List event_t) (st : EvSt),
    (retryLoop c fuel i acc st).1.last_status = st.last_status := by
  intro fuel
  induction fuel with
  | zero => intro i acc st; rfl
  | succ f ih =>
    intro i acc st
    simp only [retryLoop]
    cases hm : st.blocked[i]? with
    | none => simp [hm]
    | some e =>
      simp only [hm]
      by_cases hb : event_is_blocked st e = true
      · simp only [if_pos hb]
        exact ih _ _ _
      · simp only [if_neg hb]
        rw [ih]
        simp [event_free, event_fire_internal_last_status]

/-- The drain's inner loop preserves the exit status. -/
theorem drainEvents_last_status (c : Collab) (l : List Int) (st : EvSt) :
    (drainEvents c l st).1.last_status = st.last_status := by
  induction l generalizing st with
  | nil => rfl
  | cons s rest ih =>
    simp only [drainEvents]
    by_cases hb : event_is_blocked st (sigEvent c s) = true
    · simp only [if_pos hb]
      rw [ih]
    · simp only [if_neg hb]
      rw [ih]
      exact event_fire_internal_last_status c _ _

/-- One drain iteration preserves the exit status. -/
theorem drainOnce_last_status (c : Collab) (st : EvSt) :
    (drainOnce c st).1.last_status = st.last_status := by
  simp only [drainOnce]
  rw [drainEvents_last_status]
  by_cases ho : (activeSlot st).overflow = true <;>
    by_cases ha : st.active_list = true <;>
      simp [ho, ha, flipActive]

/-- The drain loop preserves the exit status. -/
theorem drainLoop_last_status (c : Collab) :
    ∀ (fuel : Nat) (st : EvSt),
    (drainLoop c fuel st).1.last_status = st.last_status := by
  intro fuel
  induction fuel with
  | zero => intro st; rfl
  | succ f ih =>
    intro st
    simp only [drainLoop]
    by_cases hc : 0 < (activeSlot st).signal.length
    · simp only [if_pos hc]
      rw [ih, drainOnce_last_status]
    · simp only [if_neg hc]

/-- The whole delayed-processing step preserves the exit status. -/
theorem event_fire_delayed_last_status (c : Collab) (fuel : Nat) (st : EvSt) :
    (event_fire_delayed c fuel st).1.last_status = st.last_status := by
  simp only [event_fire_delayed]
  rw [drainLoop_last_status]
  simp only [retryBlocked]
  by_cases hg : ¬ st.blocked = [] ∧ st.is_event = 1
  · rw [if_pos hg]
    exact retryLoop_last_status c fuel 0 [] st
  · rw [if_neg hg]

/-- `event_fire` preserves the exit status, whatever the handler bodies do:
every evaluator call is wrapped in the save/restore of the fire loop. -/
theorem event_fire_last_status (c : Collab) (fuel : Nat)
    (evq : Option event_t) (st : EvSt) :
    (event_fire c fuel evq st).1.last_status = st.last_status := by
  cases evq with
  | none =>
    simp only [event_fire]
    rw [event_fire_delayed_last_status]
  | some ev =>
    simp only [event_fire]
    by_cases hty : ev.type = EVENT_SIGNAL
    · rw [if_pos hty]
      simp only [event_fire_signal]
      by_cases ha : st.active_list = true <;> simp [ha]
    · rw [if_neg hty]
      by_cases hb : event_is_blocked
          (event_fire_delayed c fuel { st with is_event := st.is_event + 1 }).1 ev = true
      · simp only [if_pos hb]
        rw [event_fire_delayed_last_status]
      · simp only [if_neg hb]
        rw [event_fire_internal_last_status, event_fire_delayed_last_status]

/-- The fire loop restores the interactive-mode flag stack, provided each
handler body leaves that stack as it found it (as the evaluator contract
guarantees, and as reentrant `event_fire` calls themselves do). -/
theorem fireLoop_interactive (c : Collab)
    (hInt : ∀ b s, (c.evalBody b s).interactive = s.interactive)
    (ev : event_t) (l : List handler_t) (st : EvSt) :
    (fireLoop c ev l st).1.interactive = st.interactive := by
  induction l generalizing st with
  | nil => rfl
  | cons h rest ih =>
    simp only [fireLoop]
    by_cases hk : event_is_killed st h = true
    · simp only [if_pos hk]
      exact ih st
    · simp only [if_neg hk]
      rw [ih]
      simp [hInt]

/-- `event_fire_internal` restores the interactive-mode flag stack under the
same body contract. -/
theorem event_fire_internal_interactive (c : Collab)
    (hInt : ∀ b s, (c.evalBody b s).interactive = s.interactive)
    (ev : event_t) (st : EvSt) :
    (event_fire_internal c ev st).1.interactive = st.interactive := by
  simp only [event_fire_internal]
  by_cases h0 : (event_free_kills st).events = []
  · rw [if_pos h0]
    rfl
  · rw [if_neg h0]
    by_cases h1 :
        List.filter (fun h => event_match h.ev ev) (event_free_kills st).events = []
    · rw [if_pos h1]
      rfl
    · rw [if_neg h1]
      exact fireLoop_interactive c hInt ev _ _

/-- The retry loop preserves the interactive-mode flag stack. -/
theorem retryLoop_interactive (c : Collab)
    (hInt : ∀ b s, (c.evalBody b s).interactive = s.interactive) :
    ∀ (fuel i : Nat) (acc : List event_t) (st : EvSt),
    (retryLoop c fuel i acc st).1.interactive = st.interactive := by
  intro fuel
  induction fuel with
  | zero => intro i acc st; rfl
  | succ f ih =>
    intro i acc st
    simp only [retryLoop]
    cases hm : st.blocked[i]? with
    | none => simp [hm]
    | some e =>
      simp only [hm]
      by_cases hb : event_is_blocked st e = true
      · simp only [if_pos hb]
        exact ih _ _ _
      · simp only [if_neg hb]
        rw [ih]
        simp [event_free, event_fire_internal_interactive c hInt]

/-- The drain's inner loop preserves the interactive-mode flag stack. -/
theorem drainEvents_interactive (c : Collab)
    (hInt : ∀ b s, (c.evalBody b s).interactive = s.interactive)
    (l : List Int) (st : EvSt) :
    (drainEvents c l st).1.interactive = st.interactive := by
  induction l generalizing st with
  | nil => rfl
  | cons s rest ih =>
    simp only [drainEvents]
    by_cases hb : event_is_blocked st (sigEvent c s) = true
    · simp only [if_pos hb]
      rw [ih]
    · simp only [if_neg hb]
      rw [ih]
      exact event_fire_internal_interactive c hInt _ _

/-- One drain iteration preserves the interactive-mode flag stack. -/
theorem drainOnce_interactive (c : Collab)
    (hInt : ∀ b s, (c.evalBody b s).interactive = s.interactive) (st : EvSt) :
    (drainOnce c st).1.interactive = st.interactive := by
  simp only [drainOnce]
  rw [drainEvents_interactive c hInt]
  by_cases ho : (activeSlot st).overflow = true <;>
    by_cases ha : st.active_list = true <;>
      simp [ho, ha, flipActive]

/-- The drain loop preserves the interactive-mode flag stack. -/
theorem drainLoop_interactive (c : Collab)
    (hInt : ∀ b s, (c.evalBody b s).interactive = s.interactive) :
    ∀ (fuel : Nat) (st : EvSt),
    (drainLoop c fuel st).1.interactive = st.interactive := by
  intro fuel
  induction fuel with
  | zero => intro st; rfl
  | succ f ih =>
    intro st
    simp only [drainLoop]
    by_cases hc : 0 < (activeSlot st).signal.length
    · simp only [if_pos hc]
      rw [ih, drainOnce_interactive c hInt]
    · simp only [if_neg hc]

/-- The delayed-processing step preserves the interactive-mode flag stack. -/
theorem event_fire_delayed_interactive (c : Collab)
    (hInt : ∀ b s, (c.evalBody b s).interactive = s.interactive)
    (fuel : Nat) (st : EvSt) :
    (event_fire_delayed c fuel st).1.interactive = st.interactive := by
  simp only [event_fire_delayed]
  rw [drainLoop_interactive c hInt]
  simp only [retryBlocked]
  by_cases hg : ¬ st.blocked = [] ∧ st.is_event = 1
  · rw [if_pos hg]
    exact retryLoop_interactive c hInt fuel 0 [] st
  · rw [if_neg hg]

/-- `event_fire` preserves the interactive-mode flag stack under the body
contract. -/
theorem event_fire_interactive (c : Collab)
    (hInt : ∀ b s, (c.evalBody b s).interactive = s.interactive)
    (fuel : Nat) (evq : Option event_t) (st : EvSt) :
    (event_fire c fuel evq st).1.interactive = st.interactive := by
  cases evq with
  | none =>
    simp only [event_fire]
    rw [event_fire_delayed_interactive c hInt]
  | some ev =>
    simp only [event_fire]
    by_cases hty : ev.type = EVENT_SIGNAL
    · rw [if_pos hty]
      simp only [event_fire_signal]
      by_cases ha : st.active_list = true <;> simp [ha]
    · rw [if_neg hty]
      by_cases hb : event_is_blocked
          (event_fire_delayed c fuel { st with is_event := st.is_event + 1 }).1 ev = true
      · simp only [if_pos hb]
        rw [event_fire_delayed_interactive c hInt]
      · simp only [if_neg hb]
        rw [event_fire_internal_interactive c hInt,
          event_fire_delayed_interactive c hInt]

/-- Claim C8: around every handler invocation the interpreter's exit status
is saved before the body is evaluated and restored afterwards, so one
`event_fire_internal` pass — and a whole `event_fire` call, even when
handler bodies reentrantly fire further occurrences (any reentrant
`event_fire` itself satisfies the interactive-stack contract by the third
and fourth conjuncts) — leaves the caller-visible exit status unchanged for
arbitrary bodies, and leaves the interactive-mode flag stack unchanged for
bodies that respect the evaluator's balanced push/pop contract. -/
theorem handler_status_restore (c : Collab) (ev : event_t) (st : EvSt) :
    (event_fire_internal c ev st).1.last_status = st.last_status ∧
    (∀ (fuel : Nat) (evq : Option event_t),
      (event_fire c fuel evq st).1.last_status = st.last_status) ∧
    ((∀ b s, (c.evalBody b s).interactive = s.interactive) →
      (event_fire_internal c ev st).1.interactive = st.interactive) ∧
    ((∀ b s, (c.evalBody b s).interactive = s.interactive) →
      ∀ (fuel : Nat) (evq : Option event_t),
      (event_fire c fuel evq st).1.interactive = st.interactive) :=
  ⟨event_fire_internal_last_status c ev st,
    fun fuel evq => event_fire_last_status c fuel evq st,
    fun hInt => event_fire_internal_interactive c hInt ev st,
    fun hInt fuel evq => event_fire_interactive c hInt fuel evq st⟩

/-- Concrete collaborators for the C8 witness: a handler body that clobbers
the exit status (setting it to 42) but leaves the interactive stack alone. -/
def cW8 : Collab :=
  ⟨fun s => toString s, fun a => a,
    fun _ s => { s with last_status := 42 }⟩

/-- Concrete state for the C8 witness: one matching generic handler, exit
status 7, interactive stack `[true]`. -/
def stW8 : EvSt :=
  { events :=
      [⟨0, { event_t.generic_event "e" with function_name := "f", arguments := some [] }⟩]
    killme := []
    blocked := []
    sig0 := ⟨[], false⟩
    sig1 := ⟨[], false⟩
    active_list := false
    is_event := 0
    last_status := 7
    interactive := [true]
    isBlockedType := fun _ => false
    sigHandleLog := []
    diags := 0
    freeLog := []
    nextId := 1 }

/-- Witness for claim C8: firing the matching handler whose body sets the
exit status to 42 still leaves the caller's exit status at 7 and the
interactive stack at `[true]`. -/
theorem handler_status_restore_witness :
    (event_fire_internal cW8 (event_t.generic_event "e") stW8).1.last_status = 7 ∧
    (event_fire_internal cW8 (event_t.generic_event "e") stW8).1.interactive = [true] := by
  have h := handler_status_restore cW8 (event_t.generic_event "e") stW8
  refine ⟨?_, ?_⟩
  · rw [h.1]
    rfl
  · rw [h.2.2.1 (fun b s => rfl)]
    rfl

/-! ## Claim C6: signals only captured; drain precedes dispatch -/

/-- The fire loop does not touch the signal-capture buffers when the handler
bodies do not. -/
theorem fireLoop_sig (c : Collab)
    (hSig : ∀ b s, (c.evalBody b s).sig0 = s.sig0 ∧
      (c.evalBody b s).sig1 = s.sig1 ∧
      (c.evalBody b s).active_list = s.active_list)
    (ev : event_t) (l : List handler_t) (st : EvSt) :
    (fireLoop c ev l st).1.sig0 = st.sig0 ∧
    (fireLoop c ev l st).1.sig1 = st.sig1 ∧
    (fireLoop c ev l st).1.active_list = st.active_list := by
  induction l generalizing st with
  | nil => exact ⟨rfl, rfl, rfl⟩
  | cons h rest ih =>
    simp only [fireLoop]
    by_cases hk : event_is_killed st h = true
    · simp only [if_pos hk]
      exact ih st
    · simp only [if_neg hk]
      rcases ih ({ (c.evalBody (buildBuffer c h.ev.function_name ev.arguments)
          { st with interactive := false :: st.interactive }) with
        interactive := (c.evalBody (buildBuffer c h.ev.function_name ev.arguments)
          { st with interactive := false :: st.interactive }).interactive.tail
        last_status := st.last_status } : EvSt) with ⟨h0, h1, h2⟩
      rcases hSig (buildBuffer c h.ev.function_name ev.arguments)
        ({ st with interactive := false :: st.interactive } : EvSt) with ⟨g0, g1, g2⟩
      refine ⟨?_, ?_, ?_⟩
      · rw [h0]
        exact g0
      · rw [h1]
        exact g1
      · rw [h2]
        exact g2

/-- `event_fire_internal` does not touch the signal-capture buffers when the
handler bodies do not. -/
theorem event_fire_internal_sig (c : Collab)
    (hSig : ∀ b s, (c.evalBody b s).sig0 = s.sig0 ∧
      (c.evalBody b s).sig1 = s.sig1 ∧
      (c.evalBody b s).active_list = s.active_list)
    (ev : event_t) (st : EvSt) :
    (event_fire_internal c ev st).1.sig0 = st.sig0 ∧
    (event_fire_internal c ev st).1.sig1 = st.sig1 ∧
    (event_fire_internal c ev st).1.active_list = st.active_list := by
  simp only [event_fire_internal]
  by_cases h0 : (event_free_kills st).events = []
  · rw [if_pos h0]
    exact ⟨rfl, rfl, rfl⟩
  · rw [if_neg h0]
    by_cases h1 :
        List.filter (fun h => event_match h.ev ev) (event_free_kills st).events = []
    · rw [if_pos h1]
      exact ⟨rfl, rfl, rfl⟩
    · rw [if_neg h1]
      exact fireLoop_sig c hSig ev _ _

/-- The retry loop does not touch the signal-capture buffers when the
handler bodies do not. -/
theorem retryLoop_sig (c : Collab)
    (hSig : ∀ b s, (c.evalBody b s).sig0 = s.sig0 ∧
      (c.evalBody b s).sig1 = s.sig1 ∧
      (c.evalBody b s).active_list = s.active_list) :
    ∀ (fuel i : Nat) (acc : List event_t) (st : EvSt),
    (retryLoop c fuel i acc st).1.sig0 = st.sig0 ∧
    (retryLoop c fuel i acc st).1.sig1 = st.sig1 ∧
    (retryLoop c fuel i acc st).1.active_list = st.active_list := by
  intro fuel
  induction fuel with
  | zero => intro i acc st; exact ⟨rfl, rfl, rfl⟩
  | succ f ih =>
    intro i acc st
    simp only [retryLoop]
    cases hm : st.blocked[i]? with
    | none => simp [hm]
    | some e =>
      simp only [hm]
      by_cases hb : event_is_blocked st e = true
      · simp only [if_pos hb]
        exact ih _ _ _
      · simp only [if_neg hb]
        rcases ih (i + 1) acc (event_free e (event_fire_internal c e st).1) with
          ⟨h0, h1, h2⟩
        rcases event_fire_internal_sig c hSig e st with ⟨g0, g1, g2⟩
        exact ⟨by rw [h0]; exact g0, by rw [h1]; exact g1, by rw [h2]; exact g2⟩

/-- The retry step does not touch the signal-capture buffers when the
handler bodies do not. -/
theorem retryBlocked_sig (c : Collab)
    (hSig : ∀ b s, (c.evalBody b s).sig0 = s.sig0 ∧
      (c.evalBody b s).sig1 = s.sig1 ∧
      (c.evalBody b s).active_list = s.active_list)
    (fuel : Nat) (st : EvSt) :
    (retryBlocked c fuel st).1.sig0 = st.sig0 ∧
    (retryBlocked c fuel st).1.sig1 = st.sig1 ∧
    (retryBlocked c fuel st).1.active_list = st.active_list := by
  simp only [retryBlocked]
  by_cases hg : ¬ st.blocked = [] ∧ st.is_event = 1
  · rw [if_pos hg]
    exact retryLoop_sig c hSig fuel 0 [] st
  · rw [if_neg hg]
    exact ⟨rfl, rfl, rfl⟩

/-- The drain's inner loop does not touch the signal-capture buffers when
the handler bodies do not. -/
theorem drainEvents_sig (c : Collab)
    (hSig : ∀ b s, (c.evalBody b s).sig0 = s.sig0 ∧
      (c.evalBody b s).sig1 = s.sig1 ∧
      (c.evalBody b s).active_list = s.active_list)
    (l : List Int) (st : EvSt) :
    (drainEvents c l st).1.sig0 = st.sig0 ∧
    (drainEvents c l st).1.sig1 = st.sig1 ∧
    (drainEvents c l st).1.active_list = st.active_list := by
  induction l generalizing st with
  | nil => exact ⟨rfl, rfl, rfl⟩
  | cons s rest ih =>
    simp only [drainEvents]
    by_cases hb : event_is_blocked st (sigEvent c s) = true
    · simp only [if_pos hb]
      exact ih _
    · simp only [if_neg hb]
      rcases ih (event_fire_internal c (sigEvent c s) st).1 with ⟨h0, h1, h2⟩
      rcases event_fire_internal_sig c hSig (sigEvent c s) st with ⟨g0, g1, g2⟩
      exact ⟨by rw [h0]; exact g0, by rw [h1]; exact g1, by rw [h2]; exact g2⟩

/-- After the slot swap at the top of a drain iteration (with or without the
overflow diagnostic), the now-active slot is empty and unflagged. -/
theorem activeSlot_after_flip (st : EvSt) :
    activeSlot (if (activeSlot st).overflow then
        { flipActive st with diags := (flipActive st).diags + 1 }
      else flipActive st) = ⟨[], false⟩ := by
  by_cases ha : st.active_list = true
  · by_cases ho : st.sig1.overflow = true
    all_goals simp [activeSlot, flipActive, ha, ho]
  · by_cases ho : st.sig0.overflow = true
    all_goals simp [activeSlot, flipActive, ha, ho]

/-- The drain's inner loop leaves the active slot where it found it when
the handler bodies do not capture signals. -/
theorem drainEvents_activeSlot (c : Collab)
    (hSig : ∀ b s, (c.evalBody b s).sig0 = s.sig0 ∧
      (c.evalBody b s).sig1 = s.sig1 ∧
      (c.evalBody b s).active_list = s.active_list)
    (l : List Int) (st : EvSt) :
    activeSlot (drainEvents c l st).1 = activeSlot st := by
  rcases drainEvents_sig c hSig l st with ⟨q0, q1, q2⟩
  simp only [activeSlot, q0, q1, q2]

/-- The retry step leaves the active slot where it found it when the handler
bodies do not capture signals. -/
theorem retryBlocked_activeSlot (c : Collab)
    (hSig : ∀ b s, (c.evalBody b s).sig0 = s.sig0 ∧
      (c.evalBody b s).sig1 = s.sig1 ∧
      (c.evalBody b s).active_list = s.active_list)
    (fuel : Nat) (st : EvSt) :
    activeSlot (retryBlocked c fuel st).1 = activeSlot st := by
  rcases retryBlocked_sig c hSig fuel st with ⟨q0, q1, q2⟩
  simp only [activeSlot, q0, q1, q2]

/-- One drain iteration leaves the freshly reset slot active and empty when
the handler bodies do not capture signals. -/
theorem drainOnce_activeSlot (c : Collab)
    (hSig : ∀ b s, (c.evalBody b s).sig0 = s.sig0 ∧
      (c.evalBody b s).sig1 = s.sig1 ∧
      (c.evalBody b s).active_list = s.active_list)
    (st : EvSt) :
    activeSlot (drainOnce c st).1 = ⟨[], false⟩ := by
  simp only [drainOnce]
  rw [drainEvents_activeSlot c hSig, activeSlot_after_flip]

/-- A drain loop started with an empty active slot stops immediately. -/
theorem drainLoop_empty (c : Collab) (fuel : Nat) (st : EvSt)
    (h : (activeSlot st).signal = []) :
    drainLoop c fuel st = (st, []) := by
  cases fuel with
  | zero => rfl
  | succ f =>
    simp only [drainLoop, h]
    rfl

/-- Claim C6: a `Signal`-typed occurrence given to `event_fire` is only
forwarded to the capture path — no handler is dispatched in that call and
only the active capture slot changes; any other call first runs the whole
delayed-processing step (whose trace precedes the occurrence's own trace)
and only then blocked-queues or dispatches the occurrence, against the
post-drain state; and — when handler bodies do not themselves capture
signals — one delayed-processing step with at least one unit of fuel leaves
no pending captured signal behind, so all pending signal occurrences are
flushed before the newly fired non-signal occurrence is handled. -/
theorem fire_order (c : Collab) (fuel : Nat) (st : EvSt) :
    (∀ ev : event_t, ev.type = EVENT_SIGNAL →
      event_fire c fuel (some ev) st = (event_fire_signal ev.param1 st, [])) ∧
    (∀ ev : event_t, ¬ ev.type = EVENT_SIGNAL →
      event_fire c fuel (some ev) st =
        (let sta : EvSt := { st with is_event := st.is_event + 1 }
         let r1 := event_fire_delayed c fuel sta
         let r2 :=
           if event_is_blocked r1.1 ev then
             ({ r1.1 with blocked := r1.1.blocked ++ [event_copy ev true] },
               ([] : Trace))
           else event_fire_internal c ev r1.1
         ({ r2.1 with is_event := r2.1.is_event - 1 }, r1.2 ++ r2.2))) ∧
    ((∀ b s, (c.evalBody b s).sig0 = s.sig0 ∧
        (c.evalBody b s).sig1 = s.sig1 ∧
        (c.evalBody b s).active_list = s.active_list) → 1 ≤ fuel →
      (activeSlot (event_fire_delayed c fuel st).1).signal = []) := by
  refine ⟨?_, ?_, ?_⟩
  · intro ev hty
    simp only [event_fire, if_pos hty]
  · intro ev hty
    simp only [event_fire, if_neg hty]
  · intro hSig hfuel
    obtain ⟨f, rfl⟩ : ∃ f, fuel = f + 1 :=
      ⟨fuel - 1, by omega⟩
    simp only [event_fire_delayed]
    by_cases hlen : 0 < (activeSlot (retryBlocked c (f + 1) st).1).signal.length
    · simp only [drainLoop, if_pos hlen]
      have h1 : activeSlot (drainOnce c (retryBlocked c (f + 1) st).1).1 = ⟨[], false⟩ :=
        drainOnce_activeSlot c hSig _
      rw [drainLoop_empty c f _ (by rw [h1])]
      simp [h1]
    · simp only [drainLoop, if_neg hlen]
      exact List.length_eq_zero.mp (Nat.eq_zero_of_not_pos hlen)

/-- Concrete collaborators for the C6 witness: inert bodies. -/
def cW6 : Collab := ⟨fun _ => "S", fun a => a, fun _ s => s⟩

/-- Concrete state for the C6 witness: one captured, undelivered signal in
the active slot and no handlers. -/
def stW6 : EvSt :=
  { events := []
    killme := []
    blocked := []
    sig0 := ⟨[7], false⟩
    sig1 := ⟨[], false⟩
    active_list := false
    is_event := 0
    last_status := 0
    interactive := []
    isBlockedType := fun _ => false
    sigHandleLog := []
    diags := 0
    freeLog := []
    nextId := 0 }

/-- Witness for claim C6: a concrete `Signal`-typed occurrence is only
captured (no dispatch, no trace), and one delayed-processing step with fuel
flushes the pending captured signal, leaving the active slot empty. -/
theorem fire_order_witness :
    event_fire cW6 2 (some (event_t.signal_event 9)) stW6 =
      (event_fire_signal (event_t.signal_event 9).param1 stW6, []) ∧
    (activeSlot (event_fire_delayed cW6 2 stW6).1).signal = [] :=
  ⟨(fire_order cW6 2 stW6).1 (event_t.signal_event 9) (by decide),
    (fire_order cW6 2 stW6).2.2 (fun b s => ⟨rfl, rfl, rfl⟩) (by decide)⟩

/-! ## Claim C5: blocked occurrences round-trip -/

/-- A dispatch pass whose fire list is the single entry `h` and whose
handler body has no modelled side effects: the pass frees the kill list and
invokes `h` exactly once, with the command line built from `h`'s function
name and the occurrence's arguments. -/
theorem event_fire_internal_singleton (c : Collab)
    (hPure : ∀ b s, c.evalBody b s = s) (e : event_t) (h : handler_t)
    (st : EvSt)
    (hfil : st.events.filter (fun hh => event_match hh.ev e) = [h]) :
    event_fire_internal c e st =
      (event_free_kills st,
        [(h.id, buildBuffer c h.ev.function_name e.arguments)]) := by
  have hne : ¬ st.events = [] := by
    intro hc
    rw [hc] at hfil
    simp at hfil
  simp only [event_fire_internal]
  rw [show (event_free_kills st).events = st.events from rfl, hfil,
    if_neg hne, if_neg (List.cons_ne_nil h [])]
  simp only [fireLoop]
  rw [if_neg (by simp [event_is_killed, event_free_kills]), hPure]
  simp [event_free_kills]

/-- Claim C5: a non-signal occurrence whose class is blocked when `fire`
reaches its dispatch decision is not dispatched at all — the call's trace is
exactly the delayed-processing trace — and a deep copy (its argument list
included) is appended to the blocked queue. A later retry pass (depth one)
that finds the single queued occurrence unblocked, with exactly one live
matching handler and side-effect-free bodies, invokes that handler exactly
once with the original arguments, removes the entry from the blocked queue,
and frees it. -/
theorem blocked_roundtrip (c : Collab) (fuel : Nat) (ev e : event_t)
    (h : handler_t) (st : EvSt) :
    (¬ ev.type = EVENT_SIGNAL →
      event_is_blocked (event_fire_delayed c fuel
          { st with is_event := st.is_event + 1 }).1 ev = true →
      (event_fire c fuel (some ev) st).1.blocked =
        (event_fire_delayed c fuel
          { st with is_event := st.is_event + 1 }).1.blocked
          ++ [event_copy ev true] ∧
      (event_fire c fuel (some ev) st).2 =
        (event_fire_delayed c fuel { st with is_event := st.is_event + 1 }).2 ∧
      (event_copy ev true).arguments = some (ev.arguments.getD [])) ∧
    ((∀ b s, c.evalBody b s = s) → st.is_event = 1 → st.blocked = [e] →
      event_is_blocked st e = false → 2 ≤ fuel →
      st.events.filter (fun hh => event_match hh.ev e) = [h] →
      (retryBlocked c fuel st).2 =
        [(h.id, buildBuffer c h.ev.function_name e.arguments)] ∧
      (retryBlocked c fuel st).1.blocked = [] ∧
      e ∈ (retryBlocked c fuel st).1.freeLog) := by
  constructor
  · intro hty hblk
    simp only [event_fire, if_neg hty, if_pos hblk]
    refine ⟨?_, ?_, ?_⟩
    · simp
    · simp
    · simp [event_copy]
  · intro hPure h1 hbl hnb hf hfil
    obtain ⟨f, rfl⟩ : ∃ f, fuel = f + 1 + 1 := ⟨fuel - 2, by omega⟩
    simp only [retryBlocked]
    rw [if_pos ⟨by rw [hbl]; simp, h1⟩]
    have h0 : st.blocked[(0 : Nat)]? = some e := by
      rw [hbl]
      rfl
    simp only [retryLoop, h0]
    rw [if_neg (by simp [hnb])]
    rw [event_fire_internal_singleton c hPure e h st hfil]
    have h1' : (event_free e (event_free_kills st)).blocked[(0 + 1 : Nat)]? = none := by
      rw [show (event_free e (event_free_kills st)).blocked = st.blocked from rfl, hbl]
      rfl
    simp only [retryLoop, h1']
    refine ⟨?_, ?_, ?_⟩ <;> simp [event_free, event_free_kills]

/-- Concrete collaborators for the C5 witness: identity escaping, inert
bodies. -/
def cW5 : Collab := ⟨fun s => toString s, fun a => a, fun _ s => s⟩

/-- Concrete registry entry for the C5 witness: a handler named `on` for the
generic event `dep`. -/
def hG5 : handler_t :=
  ⟨0, { event_t.generic_event "dep" with function_name := "on", arguments := some [] }⟩

/-- Concrete occurrence for the C5 witness: generic event `dep` carrying the
argument list `[v2]`. -/
def evW5 : event_t :=
  { event_t.generic_event "dep" with arguments := some ["v2"] }

/-- Concrete state for the C5 witness, fire side: the generic class is
blocked at fire time. -/
def stW5a : EvSt :=
  { events := [hG5]
    killme := []
    blocked := []
    sig0 := ⟨[], false⟩
    sig1 := ⟨[], false⟩
    active_list := false
    is_event := 0
    last_status := 0
    interactive := []
    isBlockedType := fun t => decide (t = EVENT_GENERIC)
    sigHandleLog := []
    diags := 0
    freeLog := []
    nextId := 1 }

/-- Concrete state for the C5 witness, retry side: depth one, the copied
occurrence queued, the class no longer blocked. -/
def stW5b : EvSt :=
  { events := [hG5]
    killme := []
    blocked := [evW5]
    sig0 := ⟨[], false⟩
    sig1 := ⟨[], false⟩
    active_list := false
    is_event := 1
    last_status := 0
    interactive := []
    isBlockedType := fun _ => false
    sigHandleLog := []
    diags := 0
    freeLog := []
    nextId := 1 }

/-- Witness for claim C5: firing the blocked occurrence enqueues its deep
copy and invokes nothing; the retry pass invokes the handler exactly once
with command line `on v2`, empties the queue, and frees the entry. -/
theorem blocked_roundtrip_witness :
    (event_fire cW5 2 (some evW5) stW5a).1.blocked = [event_copy evW5 true] ∧
    (event_fire cW5 2 (some evW5) stW5a).2 = [] ∧
    (retryBlocked cW5 2 stW5b).2 = [(0, "on v2")] ∧
    (retryBlocked cW5 2 stW5b).1.blocked = [] ∧
    evW5 ∈ (retryBlocked cW5 2 stW5b).1.freeLog := by
  have hp1 := (blocked_roundtrip cW5 2 evW5 evW5 hG5 stW5a).1 (by decide) (by decide)
  have hp2 := (blocked_roundtrip cW5 2 evW5 evW5 hG5 stW5b).2 (fun b s => rfl)
    (by decide) (by decide) (by decide) (by decide) (by decide)
  refine ⟨?_, ?_, ?_, hp2.2.1, hp2.2.2⟩
  · rw [hp1.1]
    decide
  · rw [hp1.2.1]
    decide
  · rw [hp2.1]
    decide

/-! ## Claim C10: the capture path records only the raw signal number -/

/-- Every invocation record produced by the fire loop carries a command line
built from some handler's function name and the fired occurrence's argument
list. -/
theorem fireLoop_trace_buffer (c : Collab) (ev : event_t)
    (l : List handler_t) (st : EvSt) :
    ∀ rec ∈ (fireLoop c ev l st).2,
      ∃ f, rec.2 = buildBuffer c f ev.arguments := by
  induction l generalizing st with
  | nil => simp [fireLoop]
  | cons h rest ih =>
    simp only [fireLoop]
    by_cases hk : event_is_killed st h = true
    · simp only [if_pos hk]
      exact ih st
    · simp only [if_neg hk]
      intro rec hrec
      rcases List.mem_cons.mp hrec with hrec | hrec
      · exact ⟨h.ev.function_name, by rw [hrec]⟩
      · exact ih _ rec hrec

/-- Every invocation record produced by one dispatch pass carries a command
line built from some function name and the occurrence's argument list. -/
theorem event_fire_internal_trace_buffer (c : Collab) (ev : event_t)
    (st : EvSt) :
    ∀ rec ∈ (event_fire_internal c ev st).2,
      ∃ f, rec.2 = buildBuffer c f ev.arguments := by
  simp only [event_fire_internal]
  by_cases h0 : (event_free_kills st).events = []
  · rw [if_pos h0]
    simp
  · rw [if_neg h0]
    by_cases h1 :
        List.filter (fun h => event_match h.ev ev) (event_free_kills st).events = []
    · rw [if_pos h1]
      simp
    · rw [if_neg h1]
      exact fireLoop_trace_buffer c ev _ _

/-- The fire loop leaves the blocked queue alone when the handler bodies
do. -/
theorem fireLoop_blocked (c : Collab)
    (hB : ∀ b s, (c.evalBody b s).blocked = s.blocked)
    (ev : event_t) (l : List handler_t) (st : EvSt) :
    (fireLoop c ev l st).1.blocked = st.blocked := by
  induction l generalizing st with
  | nil => rfl
  | cons h rest ih =>
    simp only [fireLoop]
    by_cases hk : event_is_killed st h = true
    · simp only [if_pos hk]
      exact ih st
    · simp only [if_neg hk]
      rw [ih]
      simp [hB]

/-- One dispatch pass leaves the blocked queue alone when the handler bodies
do. -/
theorem event_fire_internal_blocked (c : Collab)
    (hB : ∀ b s, (c.evalBody b s).blocked = s.blocked)
    (ev : event_t) (st : EvSt) :
    (event_fire_internal c ev st).1.blocked = st.blocked := by
  simp only [event_fire_internal]
  by_cases h0 : (event_free_kills st).events = []
  · rw [if_pos h0]
    rfl
  · rw [if_neg h0]
    by_cases h1 :
        List.filter (fun h => event_match h.ev ev) (event_free_kills st).events = []
    · rw [if_pos h1]
      rfl
    · rw [if_neg h1]
      exact fireLoop_blocked c hB ev _ _

/-- The drain's inner loop only appends to the blocked queue (when handler
bodies leave it alone): the appended entries are deep copies of the
synthesized occurrences of some subsequence of the drained signals. -/
theorem drainEvents_blocked_sub (c : Collab)
    (hB : ∀ b s, (c.evalBody b s).blocked = s.blocked)
    (l : List Int) (st : EvSt) :
    ∃ ss : List Int, ss.Sublist l ∧
      (drainEvents c l st).1.blocked =
        st.blocked ++ ss.map (fun s => event_copy (sigEvent c s) true) := by
  induction l generalizing st with
  | nil => exact ⟨[], by simp [drainEvents]⟩
  | cons s rest ih =>
    simp only [drainEvents]
    by_cases hb : event_is_blocked st (sigEvent c s) = true
    · simp only [if_pos hb]
      rcases ih ({ st with blocked := st.blocked ++ [event_copy (sigEvent c s) true] } : EvSt)
        with ⟨ss, hsub, heq⟩
      refine ⟨s :: ss, hsub.cons₂ s, ?_⟩
      rw [heq]
      simp
    · simp only [if_neg hb]
      rcases ih (event_fire_internal c (sigEvent c s) st).1 with ⟨ss, hsub, heq⟩
      refine ⟨ss, hsub.cons s, ?_⟩
      rw [heq, event_fire_internal_blocked c hB]

/-- Claim C10: a `Signal`-typed occurrence handed to `event_fire` is routed
only through the capture path — the result depends on nothing but its raw
signal number (its arguments and handler name are discarded) — and every
occurrence later produced for it by the drain is the synthesized `sigEvent`:
empty handler name and exactly one argument, the signal's symbolic name.
Every handler invocation of a drain carries a command line built over such a
one-argument list, and every entry the drain queues as blocked is the deep
copy of such an occurrence. -/
theorem signal_occurrence_normalization (c : Collab) (st : EvSt) :
    (∀ (fuel : Nat) (ev ev' : event_t), ev.type = EVENT_SIGNAL →
      ev'.type = EVENT_SIGNAL → ev.param1 = ev'.param1 →
      event_fire c fuel (some ev) st = (event_fire_signal ev.param1 st, []) ∧
      event_fire c fuel (some ev) st = event_fire c fuel (some ev') st) ∧
    (∀ s : Int, (sigEvent c s).function_name = "" ∧
      (sigEvent c s).arguments = some [c.sig2wcs s]) ∧
    ((drainOnce c st).2.2 = (activeSlot st).signal.map (sigEvent c)) ∧
    (∀ rec ∈ (drainOnce c st).2.1, ∃ s ∈ (activeSlot st).signal,
      ∃ f, rec.2 = buildBuffer c f (some [c.sig2wcs s])) ∧
    ((∀ b s', (c.evalBody b s').blocked = s'.blocked) →
      ∃ ss : List Int, ss.Sublist (activeSlot st).signal ∧
        (drainOnce c st).1.blocked =
          st.blocked ++ ss.map (fun s => event_copy (sigEvent c s) true)) := by
  refine ⟨?_, fun s => ⟨rfl, rfl⟩, drainEvents_routed c _ _, ?_, ?_⟩
  · intro fuel ev ev' hty hty' hp
    constructor
    · simp only [event_fire, if_pos hty]
    · simp only [event_fire, if_pos hty, if_pos hty', hp]
  · -- trace form of one drain iteration
    simp only [drainOnce]
    intro rec hrec
    generalize hst2 : (if (activeSlot st).overflow then
        { flipActive st with diags := (flipActive st).diags + 1 }
      else flipActive st) = st2 at hrec
    clear hst2
    generalize (activeSlot st).signal = l at *
    induction l generalizing st2 with
    | nil => simp [drainEvents] at hrec
    | cons s rest ih =>
      simp only [drainEvents] at hrec
      by_cases hb : event_is_blocked st2 (sigEvent c s) = true
      · rw [if_pos hb] at hrec
        rcases ih _ hrec with ⟨s', hs', hf⟩
        exact ⟨s', List.mem_cons_of_mem s hs', hf⟩
      · rw [if_neg hb] at hrec
        simp only [List.mem_append] at hrec
        rcases hrec with hrec | hrec
        · rcases event_fire_internal_trace_buffer c (sigEvent c s) st2 rec hrec
            with ⟨f, hf⟩
          exact ⟨s, List.mem_cons_self s rest, f, hf⟩
        · rcases ih _ hrec with ⟨s', hs', hf⟩
          exact ⟨s', List.mem_cons_of_mem s hs', hf⟩
  · intro hB
    simp only [drainOnce]
    rcases drainEvents_blocked_sub c hB (activeSlot st).signal
        (if (activeSlot st).overflow then
          { flipActive st with diags := (flipActive st).diags + 1 }
        else flipActive st) with ⟨ss, hsub, heq⟩
    refine ⟨ss, hsub, ?_⟩
    rw [heq]
    by_cases ho : (activeSlot st).overflow = true <;>
      by_cases ha : st.active_list = true <;>
        simp [ho, ha, flipActive]

/-- Concrete collaborators for the C10 witness. -/
def cW10 : Collab := ⟨fun s => "SIG" ++ toString s, fun a => a, fun _ s => s⟩

/-- Concrete state for the C10 witness. -/
def stW10 : EvSt :=
  { events := []
    killme := []
    blocked := []
    sig0 := ⟨[], false⟩
    sig1 := ⟨[], false⟩
    active_list := false
    is_event := 0
    last_status := 0
    interactive := []
    isBlockedType := fun _ => false
    sigHandleLog := []
    diags := 0
    freeLog := []
    nextId := 0 }

/-- A signal-3 occurrence loaded with a handler name and arguments that the
capture path must discard. -/
def evS10a : event_t :=
  { event_t.signal_event 3 with function_name := "zzz", arguments := some ["junk"] }

/-- The bare signal-3 occurrence. -/
def evS10b : event_t := event_t.signal_event 3

/-- Witness for claim C10: firing the decorated signal-3 occurrence has
exactly the effect of capturing raw signal 3, identical to firing the bare
occurrence — the handler name and arguments are discarded. -/
theorem signal_occurrence_normalization_witness :
    event_fire cW10 1 (some evS10a) stW10 =
      (event_fire_signal evS10a.param1 stW10, []) ∧
    event_fire cW10 1 (some evS10a) stW10 =
      event_fire cW10 1 (some evS10b) stW10 :=
  (signal_occurrence_normalization cW10 stW10).1 1 evS10a evS10b
    (by decide) (by decide) (by decide)
